import Mathlib

/-!
Verification of the local-directory source of `img` (`source/local/local.go`)
against its specification.  The Go code is shallowly embedded: `CacheKey` is a
pure function of the identifier and the ambient session context, and `Snapshot`
is a function of an explicit world state (metadata store + cache-manager refs)
together with an environment describing which fallible collaborator calls
succeed.  Machine behaviour of collaborators (boltdb metadata store, buildkit
cache manager, mounter, copier) is modelled at the interface granularity the
code uses.
-/

namespace ImgLocal

/-- Lowercase hexadecimal digit, as Go's `encoding/json` writes `\u00xx` escapes. -/
def hexDig (n : Nat) : Char :=
  if n < 10 then Char.ofNat (48 + n) else Char.ofNat (87 + n)

/-- Models Go `encoding/json` escaping of one character inside a JSON string
literal.  `json.Marshal` uses HTML-escaping, so `<`, `>`, `&` become `\u00xx`
like the control characters, `"`, `\`, newline, carriage return and tab have
two-character escapes, and U+2028/U+2029 become ` `/` `; every other
character is emitted unchanged. -/
def escChar (c : Char) : List Char :=
  if c = '\x22' then ['\\', '\x22']
  else if c = '\\' then ['\\', '\\']
  else if c = '\n' then ['\\', 'n']
  else if c = '\r' then ['\\', 'r']
  else if c = '\t' then ['\\', 't']
  else if c.toNat < 32 ∨ c = '<' ∨ c = '>' ∨ c = '&' then
    ['\\', 'u', '0', '0', hexDig (c.toNat / 16), hexDig (c.toNat % 16)]
  else if c.toNat = 8232 ∨ c.toNat = 8233 then
    ['\\', 'u', '2', '0', '2', hexDig (c.toNat % 16)]
  else [c]

/-- Body of a JSON string literal: every character escaped. -/
def encStrBody (s : List Char) : List Char := (s.map escChar).flatten

/-- A complete JSON string literal, with its surrounding quotes. -/
def encStrQ (s : List Char) : List Char := '\x22' :: encStrBody s ++ ['\x22']

/-- The comma-separated element list of a JSON array of strings. -/
def encElems : List (List Char) → List Char
  | [] => []
  | [e] => encStrQ e
  | e :: es => encStrQ e ++ ',' :: encElems es

/-- Models Go `encoding/json` for a `[]string` field: a nil slice marshals to
`null`, a non-empty slice to a JSON array of string literals in order. -/
def encStrList (l : List String) : List Char :=
  match l with
  | [] => ['n', 'u', 'l', 'l']
  | _ => '[' :: encElems (l.map String.data) ++ [']']

/-- Models `json.Marshal` of the anonymous struct
`struct{SessionID string; IncludePatterns []string; ExcludePatterns []string}`
built inside `CacheKey`: fields in declaration order, keys as declared. -/
def jsonMarshalCacheKey (sessionID : String) (inc exc : List String) : List Char :=
  "\x7b\"SessionID\":".data ++ encStrQ sessionID.data
    ++ ",\"IncludePatterns\":".data ++ encStrList inc
    ++ ",\"ExcludePatterns\":".data ++ encStrList exc ++ ['\x7d']

/-- Modelled from the spec: `digest.FromBytes(dt).String()` comes from
`go-digest`, which is not part of this repository; the spec describes it as
"hash the serialization".  It renders the sha256 content digest of the bytes as
`sha256:<hex>`.  The model keeps the `sha256:` rendering and idealizes the
cryptographic hash as an injective (collision-free) function of the serialized
bytes. -/
def digestString (dt : List Char) : List Char := "sha256:".data ++ dt

/-- The fields of buildkit's `source.LocalIdentifier` that `local.go` reads. -/
structure LocalIdentifier where
  Name : String
  SessionID : String
  SharedKeyHint : String
  IncludePatterns : List String
  ExcludePatterns : List String
deriving DecidableEq

/-- `session.FromContext(ctx)`: the ambient session id carried by the operation
context, the empty string when no session is attached. -/
abbrev Context := String

/-- The string `"session:" + Name + ":" + digest.FromBytes(dt).String()`
returned on `CacheKey`'s success path. -/
def cacheKeyResult (sessionID : String) (src : LocalIdentifier) : String :=
  "session:" ++ src.Name ++ ":" ++
    String.mk (digestString (jsonMarshalCacheKey sessionID src.IncludePatterns src.ExcludePatterns))

/-- `(*localSourceHandler).CacheKey`: take the identifier's `SessionID`, fall
back to the context's session id when it is empty, fail when both are empty;
otherwise marshal `(sessionID, includePatterns, excludePatterns)` and return
the prefixed digest.  `ld` is the receiver's configured name-to-host-path map
(`ls.ld`); the method never reads it (nor any filesystem state), which the
definition makes explicit by ignoring the argument. -/
def CacheKey (ld : List (String × String)) (ctx : Context) (src : LocalIdentifier) :
    Except String String :=
  if src.SessionID = "" then
    if ctx = "" then .error "could not access local files without session"
    else .ok (cacheKeyResult ctx src)
  else .ok (cacheKeyResult src.SessionID src)

/-! ## The `Snapshot` state machine -/

/-- `const keySharedKey = "local.sharedKey"`. -/
def keySharedKey : String := "local.sharedKey"

/-- A value stored in a metadata record: the unmarshalled string payload and
the index it is registered under (`""` when not indexed). -/
structure MDValue where
  value : String
  index : String
deriving DecidableEq

/-- A metadata `StorageItem`: a ref id together with its key/value record. -/
structure StoreItem where
  id : String
  values : List (String × MDValue)
deriving DecidableEq

/-- The mutable world the `Snapshot` call runs against: the metadata store's
records (in index order, as `Search` enumerates them), the set of ref ids the
cache manager can hand out via `GetMutable`, a counter for fresh ids, and the
store's creation counter (how many times `New` has been called). -/
structure World where
  mdItems : List StoreItem
  refs : List String
  nextId : Nat
  created : Nat
deriving DecidableEq

/-- Which fallible collaborator calls succeed during one `Snapshot` run.
`updateOk` covers the `metadata.NewValue` / `si.Update` pair of step 12. -/
structure SnapEnv where
  searchOk : Bool := true
  newOk : Bool := true
  mountOk : Bool := true
  lmMountOk : Bool := true
  getCCOk : Bool := true
  copyOk : Bool := true
  unmountOk : Bool := true
  setCCOk : Bool := true
  updateOk : Bool := true
  commitOk : Bool := true
deriving DecidableEq

/-- The environment in which every collaborator call succeeds. -/
def allOk : SnapEnv := {}

/-- Observable events of one `Snapshot` run. -/
structure SnapTrace where
  /-- a mutable ref was acquired (reused or freshly created) -/
  held : Bool := false
  /-- the ref was freshly created by `cm.New` rather than reused -/
  createdNew : Bool := false
  /-- source paths passed to `fsutils.CopyDir`, in order -/
  copyCalls : List String := []
  /-- number of shared-key index writes (`si.SetValue` executions) -/
  indexWrites : Nat := 0
  /-- the deferred release guard fired on the mutable ref -/
  released : Bool := false
  /-- number of `lm.Unmount` invocations (explicit call and deferred guard) -/
  unmountCalls : Nat := 0
  /-- `mutable.Commit` succeeded -/
  committed : Bool := false
deriving DecidableEq

/-- Errors a `Snapshot` run can surface, one per `return nil, err` site. -/
inductive SnapErr where
  | noSession | searchErr | newErr | mountErr | lmMountErr
  | getCCErr | copyErr | unmountErr | setCCErr | updateErr | commitErr
deriving DecidableEq

/-- Reading Go's `map[string]string` (`ls.ld[name]`): the mapped path, or the
zero value `""` when the name is absent. -/
def lookupLd (ld : List (String × String)) (n : String) : String :=
  match ld.find? (fun p => p.1 = n) with
  | some p => p.2
  | none => ""

/-- The shared key computed at the top of `Snapshot`:
`keySharedKey + ":" + Name + ":" + SharedKeyHint + ":" + ls.ld[Name]`. -/
def snapshotSharedKey (ld : List (String × String)) (src : LocalIdentifier) : String :=
  keySharedKey ++ ":" ++ src.Name ++ ":" ++ src.SharedKeyHint ++ ":" ++ lookupLd ld src.Name

/-- Does this record carry some value registered under index `idx`?  (What
`metadata.Store.Search(idx)` matches on.) -/
def siMatches (r : StoreItem) (idx : String) : Bool :=
  r.values.any (fun p => p.2.index = idx)

/-- `ls.md.Search(sharedKey)`: ids of the records carrying a value indexed
under `sharedKey`, in the store's index order. -/
def mdSearch (w : World) (idx : String) : List String :=
  (w.mdItems.filter (fun r => siMatches r idx)).map (fun r => r.id)

/-- `ls.md.Get(id)`: the record for `id`, or an empty record view when the
store has none. -/
def mdGet (w : World) (i : String) : StoreItem :=
  match w.mdItems.find? (fun r => r.id = i) with
  | some r => r
  | none => ⟨i, []⟩

/-- `si.Get(k)` on a record's key/value list. -/
def assocGet (l : List (String × MDValue)) (k : String) : Option MDValue :=
  match l.find? (fun p => p.1 = k) with
  | some p => some p.2
  | none => none

/-- Set key `k` to `v` in a record's key/value list, replacing an existing
binding or appending a new one. -/
def assocSet (l : List (String × MDValue)) (k : String) (v : MDValue) :
    List (String × MDValue) :=
  if l.any (fun p => p.1 = k) then
    l.map (fun p => if p.1 = k then (k, v) else p)
  else l ++ [(k, v)]

/-- `si.Update`/`si.SetValue`: store `v` under key `k` on the record of ref
`i`, creating the record when absent. -/
def mdSet (w : World) (i k : String) (v : MDValue) : World :=
  if w.mdItems.any (fun r => r.id = i) then
    { w with mdItems := w.mdItems.map (fun r => if r.id = i then ⟨r.id, assocSet r.values k v⟩ else r) }
  else
    { w with mdItems := w.mdItems ++ [⟨i, [(k, v)]⟩] }

/-- The id `cm.New` hands out next. -/
def freshId (w : World) : String := "ref-" ++ toString w.nextId

/-- The `skipStoreSharedKey` computation of `Snapshot`:
`si, _ := ls.md.Get(mutable.ID())`, then `v := si.Get(keySharedKey)`, and when a
value is present, whether its unmarshalled string equals this call's shared
key.  NB the read is under the constant key `keySharedKey`. -/
def snapSkipStore (w : World) (mutable sharedKey : String) : Bool :=
  match assocGet (mdGet w mutable).values keySharedKey with
  | some v => v.value == sharedKey
  | none => false

/-- The tail of `Snapshot` once a mutable ref is held (everything after the
acquire/create step, i.e. from the deferred release guard onwards).  Each error
exit records which deferred guards fire at that point in the Go code:
the release guard (`retErr != nil && mutable != nil`) fires on every error from
here on, and the unmount guard (`retErr != nil && lm != nil`) fires between the
successful `lm.Mount()` and the explicit `lm.Unmount()`/`lm = nil`. -/
def snapshotWithRef (env : SnapEnv) (ld : List (String × String))
    (src : LocalIdentifier) (w : World) (sharedKey : String) (mutable : String)
    (createdNew : Bool) : Except SnapErr String × World × SnapTrace :=
  let t0 : SnapTrace := { held := true, createdNew := createdNew }
  -- mount, err := mutable.Mount(ctx, false)
  if ¬ env.mountOk then (.error .mountErr, w, { t0 with released := true }) else
  -- dest, err := lm.Mount()  (the unmount guard is installed only after this)
  if ¬ env.lmMountOk then (.error .lmMountErr, w, { t0 with released := true }) else
  -- cc, err := contenthash.GetCacheContext(ctx, mutable.Metadata())
  if ¬ env.getCCOk then
    (.error .getCCErr, w, { t0 with released := true, unmountCalls := 1 }) else
  -- fsutils.CopyDir(ls.ld[ls.src.Name], dest, ls.src, &cacheUpdater{cc})
  let t1 := { t0 with copyCalls := [lookupLd ld src.Name] }
  if ¬ env.copyOk then
    (.error .copyErr, w, { t1 with released := true, unmountCalls := 1 }) else
  -- err := lm.Unmount()  (on failure the deferred guard unmounts a second time)
  if ¬ env.unmountOk then
    (.error .unmountErr, w, { t1 with released := true, unmountCalls := 2 }) else
  let t2 := { t1 with unmountCalls := 1 }   -- lm = nil: the unmount guard is disarmed
  -- err := contenthash.SetCacheContext(ctx, mutable.Metadata(), cc)
  if ¬ env.setCCOk then (.error .setCCErr, w, { t2 with released := true }) else
  -- skip storing snapshot by the shared key if it already exists
  if snapSkipStore w mutable sharedKey then
    -- snap, err := mutable.Commit(ctx)
    if ¬ env.commitOk then (.error .commitErr, w, { t2 with released := true })
    else (.ok mutable, w, { t2 with committed := true })
  else
    -- v, err := metadata.NewValue(sharedKey); v.Index = sharedKey
    -- si.Update(func(b) { return si.SetValue(b, sharedKey, v) })
    if ¬ env.updateOk then (.error .updateErr, w, { t2 with released := true }) else
    let w2 := mdSet w mutable sharedKey ⟨sharedKey, sharedKey⟩
    let t3 := { t2 with indexWrites := 1 }
    if ¬ env.commitOk then (.error .commitErr, w2, { t3 with released := true })
    else (.ok mutable, w2, { t3 with committed := true })

/-- `(*localSourceHandler).Snapshot`: require a context session, compute the
shared key, search the index and acquire the first still-acquirable match as
the mutable ref (skipping stale matches silently), create a fresh ref when no
match is acquirable, then run the mount/copy/hash/index/commit tail. -/
def Snapshot (env : SnapEnv) (ld : List (String × String)) (src : LocalIdentifier)
    (ctx : Context) (w : World) : Except SnapErr String × World × SnapTrace :=
  -- id := session.FromContext(ctx)
  if ctx = "" then (.error .noSession, w, {}) else
  let sharedKey := snapshotSharedKey ld src
  -- sis, err := ls.md.Search(sharedKey)
  if ¬ env.searchOk then (.error .searchErr, w, {}) else
  -- for _, si := range sis { if m, err := ls.cm.GetMutable(ctx, si.ID()); err == nil { ... break } }
  match (mdSearch w sharedKey).find? (fun i => w.refs.contains i) with
  | some m => snapshotWithRef env ld src w sharedKey m false
  | none =>
    -- m, err := ls.cm.New(ctx, nil, cache.CachePolicyRetain, ...)
    if ¬ env.newOk then (.error .newErr, w, {}) else
    let nid := freshId w
    let w1 : World := { w with refs := w.refs ++ [nid], nextId := w.nextId + 1,
                               created := w.created + 1 }
    snapshotWithRef env ld src w1 sharedKey nid true

/-- The empty starting world. -/
def w0 : World := ⟨[], [], 0, 0⟩

/-! ## Decoders for the JSON fragments

These exist only to prove the encoders injective (each decoder is a left
inverse of the corresponding encoder); they are not part of the embedded
program.  `parseStrBodyF`/`parseElemsF` carry a fuel argument so that they are
structurally recursive and reduce definitionally. -/

def hexVal (c : Char) : Option Nat :=
  if '0' ≤ c ∧ c ≤ '9' then some (c.toNat - 48)
  else if 'a' ≤ c ∧ c ≤ 'f' then some (c.toNat - 87)
  else none

def unescChar (c : Char) : Option Char :=
  if c = '\x22' then some '\x22'
  else if c = '\\' then some '\\'
  else if c = 'n' then some '\n'
  else if c = 'r' then some '\r'
  else if c = 't' then some '\t'
  else none

def parseStrBodyF : Nat → List Char → Option (List Char × List Char)
  | 0, _ => none
  | _ + 1, [] => none
  | fuel + 1, c :: rest =>
    if c = '\x22' then some ([], rest)
    else if c = '\\' then
      match rest with
      | [] => none
      | e :: rest2 =>
        if e = 'u' then
          match rest2 with
          | h1 :: h2 :: h3 :: h4 :: rest3 =>
            match hexVal h1 with
            | none => none
            | some a =>
              match hexVal h2 with
              | none => none
              | some b =>
                match hexVal h3 with
                | none => none
                | some c2 =>
                  match hexVal h4 with
                  | none => none
                  | some d =>
                    (parseStrBodyF fuel rest3).map fun p =>
                      (Char.ofNat (4096 * a + 256 * b + 16 * c2 + d) :: p.1, p.2)
          | _ => none
        else
          match unescChar e with
          | some ce => (parseStrBodyF fuel rest2).map fun p => (ce :: p.1, p.2)
          | none => none
    else
      (parseStrBodyF fuel rest).map fun p => (c :: p.1, p.2)

def parseElemsF : Nat → List Char → Option (List (List Char) × List Char)
  | 0, _ => none
  | _ + 1, [] => none
  | fuel + 1, c :: rest =>
    if c = '\x22' then
      match parseStrBodyF fuel rest with
      | some (s, r) =>
        match r with
        | [] => none
        | r0 :: r2 =>
          if r0 = ',' then
            match parseElemsF fuel r2 with
            | some (l, r3) => some (s :: l, r3)
            | none => none
          else if r0 = ']' then some ([s], r2)
          else none
      | none => none
    else none

def elemsFuel (l : List (List Char)) : Nat := (l.map (fun e => e.length + 1)).sum

/-- The running example: identifier `{name: "work", hint: "v1"}` with host dir
`/tmp/src`, no explicit session, context session `"s1"`. -/
def srcWork : LocalIdentifier := ⟨"work", "", "v1", [], []⟩

def ldWork : List (String × String) := [("work", "/tmp/src")]

/-- A world in which ref `"r0"` is acquirable and its record already carries
the shared-key index entry, as left behind by a previous successful call. -/
def wReuse : World :=
  ⟨[⟨"r0", [("local.sharedKey:work:v1:/tmp/src",
      ⟨"local.sharedKey:work:v1:/tmp/src", "local.sharedKey:work:v1:/tmp/src"⟩)]⟩],
    ["r0"], 1, 1⟩

theorem psF_quote (f : Nat) (k : List Char) :
    parseStrBodyF (f + 1) ('\x22' :: k) = some ([], k) := rfl

theorem psF_escQ (f : Nat) (k : List Char) :
    parseStrBodyF (f + 1) ('\\' :: '\x22' :: k) =
      (parseStrBodyF f k).map fun p => ('\x22' :: p.1, p.2) := rfl

theorem psF_escB (f : Nat) (k : List Char) :
    parseStrBodyF (f + 1) ('\\' :: '\\' :: k) =
      (parseStrBodyF f k).map fun p => ('\\' :: p.1, p.2) := rfl

theorem psF_escN (f : Nat) (k : List Char) :
    parseStrBodyF (f + 1) ('\\' :: 'n' :: k) =
      (parseStrBodyF f k).map fun p => ('\n' :: p.1, p.2) := rfl

theorem psF_escR (f : Nat) (k : List Char) :
    parseStrBodyF (f + 1) ('\\' :: 'r' :: k) =
      (parseStrBodyF f k).map fun p => ('\x0d' :: p.1, p.2) := rfl

theorem psF_escT (f : Nat) (k : List Char) :
    parseStrBodyF (f + 1) ('\\' :: 't' :: k) =
      (parseStrBodyF f k).map fun p => ('\t' :: p.1, p.2) := rfl

theorem psF_u00 (f : Nat) (d1 d2 : Char) (k : List Char) :
    parseStrBodyF (f + 1) ('\\' :: 'u' :: '0' :: '0' :: d1 :: d2 :: k) =
      (match hexVal d1 with
       | none => none
       | some c2 =>
         match hexVal d2 with
         | none => none
         | some d =>
           (parseStrBodyF f k).map fun p =>
             (Char.ofNat (4096 * 0 + 256 * 0 + 16 * c2 + d) :: p.1, p.2)) := rfl

theorem psF_u2028 (f : Nat) (k : List Char) :
    parseStrBodyF (f + 1) ('\\' :: 'u' :: '2' :: '0' :: '2' :: '8' :: k) =
      (parseStrBodyF f k).map fun p => (Char.ofNat 8232 :: p.1, p.2) := rfl

theorem psF_u2029 (f : Nat) (k : List Char) :
    parseStrBodyF (f + 1) ('\\' :: 'u' :: '2' :: '0' :: '2' :: '9' :: k) =
      (parseStrBodyF f k).map fun p => (Char.ofNat 8233 :: p.1, p.2) := rfl

theorem psF_safe (f : Nat) (c : Char) (k : List Char) (hq : ¬ c = '\x22') (hb : ¬ c = '\\') :
    parseStrBodyF (f + 1) (c :: k) = (parseStrBodyF f k).map fun p => (c :: p.1, p.2) := by
  show (if c = '\x22' then some ([], k) else _) = _
  rw [if_neg hq, if_neg hb]

theorem psF_escChar (c : Char) (k : List Char) (f : Nat) :
    parseStrBodyF (f + 1) (escChar c ++ k) =
      (parseStrBodyF f k).map fun p => (c :: p.1, p.2) := by
  by_cases h1 : c = '\x22'
  · subst h1; exact psF_escQ f k
  by_cases h2 : c = '\\'
  · subst h2; exact psF_escB f k
  by_cases h3 : c = '\n'
  · subst h3; exact psF_escN f k
  by_cases h4 : c = '\r'
  · subst h4; exact psF_escR f k
  by_cases h5 : c = '\t'
  · subst h5; exact psF_escT f k
  by_cases h6 : c.toNat < 32 ∨ c = '<' ∨ c = '>' ∨ c = '&'
  · have h256 : c.toNat < 256 := by
      rcases h6 with h | h | h | h
      · omega
      · subst h; decide
      · subst h; decide
      · subst h; decide
    have e1 : hexVal (hexDig (c.toNat / 16)) = some (c.toNat / 16) := by
      have : c.toNat / 16 < 16 := by omega
      interval_cases h : (c.toNat / 16) <;> decide
    have e2 : hexVal (hexDig (c.toNat % 16)) = some (c.toNat % 16) := by
      have : c.toNat % 16 < 16 := by omega
      interval_cases h : (c.toNat % 16) <;> decide
    have hesc : escChar c =
        ['\\', 'u', '0', '0', hexDig (c.toNat / 16), hexDig (c.toNat % 16)] := by
      simp [escChar, h1, h2, h3, h4, h5, h6]
    rw [hesc]
    simp only [List.cons_append, List.nil_append]
    rw [psF_u00, e1, e2]
    have harith : 4096 * 0 + 256 * 0 + 16 * (c.toNat / 16) + c.toNat % 16 = c.toNat := by
      omega
    simp only [harith, Char.ofNat_toNat]
  by_cases h7 : c.toNat = 8232 ∨ c.toNat = 8233
  · have h6a : ¬(c = '<' ∨ c = '>' ∨ c = '&') := fun hh => h6 (Or.inr hh)
    rcases h7 with h | h
    · have hm : hexDig (c.toNat % 16) = '8' := by
        rw [show c.toNat % 16 = 8 by omega]; decide
      have hesc : escChar c = ['\\', 'u', '2', '0', '2', '8'] := by
        simp [escChar, h1, h2, h3, h4, h5, h6a, h]; decide
      rw [hesc]
      simp only [List.cons_append, List.nil_append]
      rw [psF_u2028]
      have hc : Char.ofNat 8232 = c := by rw [← h, Char.ofNat_toNat]
      simp only [hc]
    · have hm : hexDig (c.toNat % 16) = '9' := by
        rw [show c.toNat % 16 = 9 by omega]; decide
      have hesc : escChar c = ['\\', 'u', '2', '0', '2', '9'] := by
        simp [escChar, h1, h2, h3, h4, h5, h6a, h]; decide
      rw [hesc]
      simp only [List.cons_append, List.nil_append]
      rw [psF_u2029]
      have hc : Char.ofNat 8233 = c := by rw [← h, Char.ofNat_toNat]
      simp only [hc]
  · have hesc : escChar c = [c] := by
      simp [escChar, h1, h2, h3, h4, h5, h6, h7]
    rw [hesc]
    simp only [List.cons_append, List.nil_append]
    exact psF_safe f c k h1 h2

theorem psF_encStrBody :
    ∀ (s : List Char) (rest : List Char) (f : Nat), s.length < f →
      parseStrBodyF f (encStrBody s ++ '\x22' :: rest) = some (s, rest) := by
  intro s
  induction s with
  | nil =>
    intro rest f hf
    cases f with
    | zero => omega
    | succ f => exact psF_quote f rest
  | cons c s ih =>
    intro rest f hf
    cases f with
    | zero => omega
    | succ f =>
      have h1 : encStrBody (c :: s) ++ '\x22' :: rest =
          escChar c ++ (encStrBody s ++ '\x22' :: rest) := by
        simp [encStrBody]
      rw [h1, psF_escChar, ih rest f (by simp at hf; omega)]
      rfl

theorem encStrQ_inj {a b : List Char} (h : encStrQ a = encStrQ b) : a = b := by
  have ha := psF_encStrBody a [] (a.length + b.length + 1) (by omega)
  have hb := psF_encStrBody b [] (a.length + b.length + 1) (by omega)
  simp only [encStrQ] at h
  injection h with h0 h
  simp only [List.append_eq] at h
  rw [h] at ha
  rw [hb] at ha
  have := Option.some.inj ha
  exact (congrArg Prod.fst this).symm

theorem peF_encElems :
    ∀ (es : List (List Char)) (e : List Char) (rest : List Char) (f : Nat),
      elemsFuel (e :: es) < f →
      parseElemsF f (encElems (e :: es) ++ ']' :: rest) = some (e :: es, rest) := by
  intro es
  induction es with
  | nil =>
    intro e rest f hf
    cases f with
    | zero => omega
    | succ f =>
      have hlen : e.length < f := by
        simp [elemsFuel] at hf; omega
      have hsh : encElems [e] ++ ']' :: rest =
          '\x22' :: (encStrBody e ++ '\x22' :: ']' :: rest) := by
        simp [encElems, encStrQ]
      rw [hsh]
      simp only [parseElemsF]
      rw [psF_encStrBody e (']' :: rest) f hlen]
      simp
  | cons e2 es2 ih =>
    intro e rest f hf
    cases f with
    | zero => omega
    | succ f =>
      have hlen : e.length < f := by
        simp [elemsFuel] at hf; omega
      have hrec : elemsFuel (e2 :: es2) < f := by
        simp [elemsFuel] at hf ⊢; omega
      have hsh : encElems (e :: e2 :: es2) ++ ']' :: rest =
          '\x22' :: (encStrBody e ++ '\x22' :: ',' :: (encElems (e2 :: es2) ++ ']' :: rest)) := by
        simp [encElems, encStrQ]
      rw [hsh]
      simp only [parseElemsF]
      rw [psF_encStrBody e (',' :: (encElems (e2 :: es2) ++ ']' :: rest)) f hlen]
      simp only [reduceIte]
      rw [ih e2 rest f hrec]

theorem encStrList_inj {l1 l2 : List String} (h : encStrList l1 = encStrList l2) :
    l1 = l2 := by
  match l1, l2 with
  | [], [] => rfl
  | [], x :: xs =>
    have hh := congrArg List.head? h
    simp [encStrList] at hh
  | x :: xs, [] =>
    have hh := congrArg List.head? h
    simp [encStrList] at hh
  | x1 :: xs1, x2 :: xs2 =>
    simp only [encStrList] at h
    injection h with h0 h
    simp only [List.append_eq, List.map_cons] at h
    have h1 := peF_encElems (xs1.map String.data) x1.data []
      (elemsFuel (x1.data :: xs1.map String.data) + elemsFuel (x2.data :: xs2.map String.data) + 1)
      (by omega)
    have h2 := peF_encElems (xs2.map String.data) x2.data []
      (elemsFuel (x1.data :: xs1.map String.data) + elemsFuel (x2.data :: xs2.map String.data) + 1)
      (by omega)
    rw [h] at h1
    rw [h2] at h1
    have hp := congrArg Prod.fst (Option.some.inj h1)
    have hinj : Function.Injective (fun s : String => s.data) := fun a b hab => String.ext hab
    have hl : (x2 :: xs2).map (fun s : String => s.data) = (x1 :: xs1).map (fun s : String => s.data) := by
      simpa using hp
    exact (List.map_injective_iff.2 hinj hl).symm

/-! ## Injectivity of the marshalled cache-key tuple -/

theorem jsonMarshal_sessionID_inj {s1 s2 : String} {inc exc : List String}
    (h : jsonMarshalCacheKey s1 inc exc = jsonMarshalCacheKey s2 inc exc) :
    s1 = s2 := by
  simp only [jsonMarshalCacheKey, List.append_assoc] at h
  have h1 := List.append_cancel_left h
  have h2 := List.append_cancel_right h1
  exact String.ext (encStrQ_inj h2)

theorem jsonMarshal_include_inj {s : String} {inc1 inc2 exc : List String}
    (h : jsonMarshalCacheKey s inc1 exc = jsonMarshalCacheKey s inc2 exc) :
    inc1 = inc2 := by
  simp only [jsonMarshalCacheKey, List.append_assoc] at h
  have h1 := List.append_cancel_left (List.append_cancel_left
    (List.append_cancel_left h))
  have h2 := List.append_cancel_right h1
  exact encStrList_inj h2

theorem jsonMarshal_exclude_inj {s : String} {inc exc1 exc2 : List String}
    (h : jsonMarshalCacheKey s inc exc1 = jsonMarshalCacheKey s inc exc2) :
    exc1 = exc2 := by
  simp only [jsonMarshalCacheKey, List.append_assoc] at h
  have h1 := List.append_cancel_left (List.append_cancel_left
    (List.append_cancel_left (List.append_cancel_left (List.append_cancel_left h))))
  have h2 := List.append_cancel_right h1
  exact encStrList_inj h2

theorem sessionKey_name_inj {n1 n2 d : String}
    (h : "session:" ++ n1 ++ ":" ++ d = "session:" ++ n2 ++ ":" ++ d) : n1 = n2 := by
  have hd := congrArg String.data h
  simp only [String.data_append, List.append_assoc] at hd
  exact String.ext (List.append_cancel_right (List.append_cancel_left hd))

theorem sessionKey_digest_inj {n d1 d2 : String}
    (h : "session:" ++ n ++ ":" ++ d1 = "session:" ++ n ++ ":" ++ d2) : d1 = d2 := by
  have hd := congrArg String.data h
  simp only [String.data_append, List.append_assoc] at hd
  exact String.ext (List.append_cancel_left (List.append_cancel_left
    (List.append_cancel_left hd)))

theorem digestString_inj {m1 m2 : List Char}
    (h : digestString m1 = digestString m2) : m1 = m2 := by
  simp only [digestString] at h
  exact List.append_cancel_left h

/-- `String.mk` applied to the digest characters is injective. -/
theorem digestMk_inj {m1 m2 : List Char}
    (h : String.mk (digestString m1) = String.mk (digestString m2)) : m1 = m2 := by
  have := congrArg String.data h
  exact digestString_inj this

/-! ## Case analysis of the snapshot tail

`snapshotWithRef_cases` enumerates every exit of the tail, with the collaborator
outcomes that lead there and the exact result; all later lifecycle reasoning
goes through it. -/

theorem snapshotWithRef_cases (env : SnapEnv) (ld : List (String × String))
    (src : LocalIdentifier) (w : World) (sk m : String) (cn : Bool) :
    (env.mountOk = false ∧ snapshotWithRef env ld src w sk m cn =
      (.error .mountErr, w, ⟨true, cn, [], 0, true, 0, false⟩)) ∨
    (env.mountOk = true ∧ env.lmMountOk = false ∧ snapshotWithRef env ld src w sk m cn =
      (.error .lmMountErr, w, ⟨true, cn, [], 0, true, 0, false⟩)) ∨
    (env.mountOk = true ∧ env.lmMountOk = true ∧ env.getCCOk = false ∧
      snapshotWithRef env ld src w sk m cn =
      (.error .getCCErr, w, ⟨true, cn, [], 0, true, 1, false⟩)) ∨
    (env.mountOk = true ∧ env.lmMountOk = true ∧ env.getCCOk = true ∧
      env.copyOk = false ∧ snapshotWithRef env ld src w sk m cn =
      (.error .copyErr, w, ⟨true, cn, [lookupLd ld src.Name], 0, true, 1, false⟩)) ∨
    (env.mountOk = true ∧ env.lmMountOk = true ∧ env.getCCOk = true ∧
      env.copyOk = true ∧ env.unmountOk = false ∧ snapshotWithRef env ld src w sk m cn =
      (.error .unmountErr, w, ⟨true, cn, [lookupLd ld src.Name], 0, true, 2, false⟩)) ∨
    (env.mountOk = true ∧ env.lmMountOk = true ∧ env.getCCOk = true ∧
      env.copyOk = true ∧ env.unmountOk = true ∧ env.setCCOk = false ∧
      snapshotWithRef env ld src w sk m cn =
      (.error .setCCErr, w, ⟨true, cn, [lookupLd ld src.Name], 0, true, 1, false⟩)) ∨
    (env.mountOk = true ∧ env.lmMountOk = true ∧ env.getCCOk = true ∧
      env.copyOk = true ∧ env.unmountOk = true ∧ env.setCCOk = true ∧
      snapSkipStore w m sk = true ∧ env.commitOk = false ∧
      snapshotWithRef env ld src w sk m cn =
      (.error .commitErr, w, ⟨true, cn, [lookupLd ld src.Name], 0, true, 1, false⟩)) ∨
    (env.mountOk = true ∧ env.lmMountOk = true ∧ env.getCCOk = true ∧
      env.copyOk = true ∧ env.unmountOk = true ∧ env.setCCOk = true ∧
      snapSkipStore w m sk = true ∧ env.commitOk = true ∧
      snapshotWithRef env ld src w sk m cn =
      (.ok m, w, ⟨true, cn, [lookupLd ld src.Name], 0, false, 1, true⟩)) ∨
    (env.mountOk = true ∧ env.lmMountOk = true ∧ env.getCCOk = true ∧
      env.copyOk = true ∧ env.unmountOk = true ∧ env.setCCOk = true ∧
      snapSkipStore w m sk = false ∧ env.updateOk = false ∧
      snapshotWithRef env ld src w sk m cn =
      (.error .updateErr, w, ⟨true, cn, [lookupLd ld src.Name], 0, true, 1, false⟩)) ∨
    (env.mountOk = true ∧ env.lmMountOk = true ∧ env.getCCOk = true ∧
      env.copyOk = true ∧ env.unmountOk = true ∧ env.setCCOk = true ∧
      snapSkipStore w m sk = false ∧ env.updateOk = true ∧ env.commitOk = false ∧
      snapshotWithRef env ld src w sk m cn =
      (.error .commitErr, mdSet w m sk ⟨sk, sk⟩,
        ⟨true, cn, [lookupLd ld src.Name], 1, true, 1, false⟩)) ∨
    (env.mountOk = true ∧ env.lmMountOk = true ∧ env.getCCOk = true ∧
      env.copyOk = true ∧ env.unmountOk = true ∧ env.setCCOk = true ∧
      snapSkipStore w m sk = false ∧ env.updateOk = true ∧ env.commitOk = true ∧
      snapshotWithRef env ld src w sk m cn =
      (.ok m, mdSet w m sk ⟨sk, sk⟩,
        ⟨true, cn, [lookupLd ld src.Name], 1, false, 1, true⟩)) := by
  by_cases h1 : env.mountOk = true
  case neg =>
    exact Or.inl ⟨by simpa using h1, by simp [snapshotWithRef, h1]⟩
  by_cases h2 : env.lmMountOk = true
  case neg =>
    exact Or.inr (Or.inl ⟨h1, by simpa using h2, by simp [snapshotWithRef, h1, h2]⟩)
  by_cases h3 : env.getCCOk = true
  case neg =>
    exact Or.inr (Or.inr (Or.inl
      ⟨h1, h2, by simpa using h3, by simp [snapshotWithRef, h1, h2, h3]⟩))
  by_cases h4 : env.copyOk = true
  case neg =>
    exact Or.inr (Or.inr (Or.inr (Or.inl
      ⟨h1, h2, h3, by simpa using h4, by simp [snapshotWithRef, h1, h2, h3, h4]⟩)))
  by_cases h5 : env.unmountOk = true
  case neg =>
    exact Or.inr (Or.inr (Or.inr (Or.inr (Or.inl
      ⟨h1, h2, h3, h4, by simpa using h5, by simp [snapshotWithRef, h1, h2, h3, h4, h5]⟩))))
  by_cases h6 : env.setCCOk = true
  case neg =>
    exact Or.inr (Or.inr (Or.inr (Or.inr (Or.inr (Or.inl
      ⟨h1, h2, h3, h4, h5, by simpa using h6,
        by simp [snapshotWithRef, h1, h2, h3, h4, h5, h6]⟩)))))
  by_cases hs : snapSkipStore w m sk = true
  · by_cases h7 : env.commitOk = true
    case neg =>
      exact Or.inr (Or.inr (Or.inr (Or.inr (Or.inr (Or.inr (Or.inl
        ⟨h1, h2, h3, h4, h5, h6, hs, by simpa using h7,
          by simp [snapshotWithRef, h1, h2, h3, h4, h5, h6, hs, h7]⟩))))))
    · exact Or.inr (Or.inr (Or.inr (Or.inr (Or.inr (Or.inr (Or.inr (Or.inl
        ⟨h1, h2, h3, h4, h5, h6, hs, h7,
          by simp [snapshotWithRef, h1, h2, h3, h4, h5, h6, hs, h7]⟩)))))))
  · have hs' : snapSkipStore w m sk = false := by simpa using hs
    by_cases h8 : env.updateOk = true
    case neg =>
      exact Or.inr (Or.inr (Or.inr (Or.inr (Or.inr (Or.inr (Or.inr (Or.inr (Or.inl
        ⟨h1, h2, h3, h4, h5, h6, hs', by simpa using h8,
          by simp [snapshotWithRef, h1, h2, h3, h4, h5, h6, hs', h8]⟩))))))))
    by_cases h7 : env.commitOk = true
    case neg =>
      exact Or.inr (Or.inr (Or.inr (Or.inr (Or.inr (Or.inr (Or.inr (Or.inr (Or.inr (Or.inl
        ⟨h1, h2, h3, h4, h5, h6, hs', h8, by simpa using h7,
          by simp [snapshotWithRef, h1, h2, h3, h4, h5, h6, hs', h8, h7]⟩)))))))))
    · exact Or.inr (Or.inr (Or.inr (Or.inr (Or.inr (Or.inr (Or.inr (Or.inr (Or.inr (Or.inr
        ⟨h1, h2, h3, h4, h5, h6, hs', h8, h7,
          by simp [snapshotWithRef, h1, h2, h3, h4, h5, h6, hs', h8, h7]⟩)))))))))

/-- The top of `Snapshot` before the tail: session check, search, acquire or
create. -/
theorem Snapshot_shape (env : SnapEnv) (ld : List (String × String))
    (src : LocalIdentifier) (ctx : Context) (w : World) :
    (ctx = "" ∧ Snapshot env ld src ctx w = (.error .noSession, w, {})) ∨
    (¬ ctx = "" ∧ env.searchOk = false ∧
      Snapshot env ld src ctx w = (.error .searchErr, w, {})) ∨
    (¬ ctx = "" ∧ env.searchOk = true ∧
      ∃ m, (mdSearch w (snapshotSharedKey ld src)).find? (fun i => w.refs.contains i) = some m ∧
        Snapshot env ld src ctx w =
          snapshotWithRef env ld src w (snapshotSharedKey ld src) m false) ∨
    (¬ ctx = "" ∧ env.searchOk = true ∧
      (mdSearch w (snapshotSharedKey ld src)).find? (fun i => w.refs.contains i) = none ∧
      env.newOk = false ∧ Snapshot env ld src ctx w = (.error .newErr, w, {})) ∨
    (¬ ctx = "" ∧ env.searchOk = true ∧
      (mdSearch w (snapshotSharedKey ld src)).find? (fun i => w.refs.contains i) = none ∧
      env.newOk = true ∧ Snapshot env ld src ctx w =
        snapshotWithRef env ld src
          { w with refs := w.refs ++ [freshId w], nextId := w.nextId + 1,
                   created := w.created + 1 }
          (snapshotSharedKey ld src) (freshId w) true) := by
  by_cases hctx : ctx = ""
  · exact Or.inl ⟨hctx, by simp [Snapshot, hctx]⟩
  by_cases hse : env.searchOk = true
  case neg =>
    exact Or.inr (Or.inl ⟨hctx, by simpa using hse, by simp [Snapshot, hctx, hse]⟩)
  cases hfind : (mdSearch w (snapshotSharedKey ld src)).find? (fun i => w.refs.contains i) with
  | some m =>
    refine Or.inr (Or.inr (Or.inl ⟨hctx, hse, m, rfl, ?_⟩))
    simp only [Snapshot]
    rw [if_neg hctx, if_neg (not_not_intro hse), hfind]
  | none =>
    by_cases hnew : env.newOk = true
    case neg =>
      refine Or.inr (Or.inr (Or.inr (Or.inl ⟨hctx, hse, rfl, by simpa using hnew, ?_⟩)))
      simp only [Snapshot]
      rw [if_neg hctx, if_neg (not_not_intro hse), hfind, if_pos hnew]
    · refine Or.inr (Or.inr (Or.inr (Or.inr ⟨hctx, hse, rfl, hnew, ?_⟩)))
      simp only [Snapshot]
      rw [if_neg hctx, if_neg (not_not_intro hse), hfind, if_neg (not_not_intro hnew)]

/-- `mdSet` only touches the record list. -/
theorem mdSet_created (w : World) (i k : String) (v : MDValue) :
    (mdSet w i k v).created = w.created := by
  simp only [mdSet]
  split <;> rfl

theorem mdSet_refs (w : World) (i k : String) (v : MDValue) :
    (mdSet w i k v).refs = w.refs := by
  simp only [mdSet]
  split <;> rfl

/-- Lifecycle of the tail: the ref is always recorded as held, and the run
either commits (result `ok`, release guard never fired) or releases (result an
error, never `noSession`). -/
theorem snapshotWithRef_lifecycle (env : SnapEnv) (ld : List (String × String))
    (src : LocalIdentifier) (w : World) (sk m : String) (cn : Bool) :
    (snapshotWithRef env ld src w sk m cn).2.2.held = true ∧
    (((snapshotWithRef env ld src w sk m cn).2.2.committed = true ∧
      (snapshotWithRef env ld src w sk m cn).2.2.released = false ∧
      (snapshotWithRef env ld src w sk m cn).1 = .ok m) ∨
     ((snapshotWithRef env ld src w sk m cn).2.2.committed = false ∧
      (snapshotWithRef env ld src w sk m cn).2.2.released = true ∧
      ¬ (snapshotWithRef env ld src w sk m cn).1 = .error .noSession ∧
      ∀ i, ¬ (snapshotWithRef env ld src w sk m cn).1 = .ok i)) := by
  rcases snapshotWithRef_cases env ld src w sk m cn with
    ⟨_, he⟩ | ⟨_, _, he⟩ | ⟨_, _, _, he⟩ | ⟨_, _, _, _, he⟩ | ⟨_, _, _, _, _, he⟩ |
    ⟨_, _, _, _, _, _, he⟩ | ⟨_, _, _, _, _, _, _, _, he⟩ | ⟨_, _, _, _, _, _, _, _, he⟩ |
    ⟨_, _, _, _, _, _, _, _, he⟩ | ⟨_, _, _, _, _, _, _, _, _, he⟩ |
    ⟨_, _, _, _, _, _, _, _, _, he⟩ <;> rw [he] <;> simp

/-- Under the all-success environment the tail always commits, reusing `m`, and
the only world change is the (unconditional unless skipped) index write. -/
theorem snapshotWithRef_allOk (ld : List (String × String)) (src : LocalIdentifier)
    (w : World) (sk m : String) (cn : Bool) :
    (snapSkipStore w m sk = true ∧
      snapshotWithRef allOk ld src w sk m cn =
        (.ok m, w, ⟨true, cn, [lookupLd ld src.Name], 0, false, 1, true⟩)) ∨
    (snapSkipStore w m sk = false ∧
      snapshotWithRef allOk ld src w sk m cn =
        (.ok m, mdSet w m sk ⟨sk, sk⟩,
          ⟨true, cn, [lookupLd ld src.Name], 1, false, 1, true⟩)) := by
  rcases snapshotWithRef_cases allOk ld src w sk m cn with
    ⟨hf, _⟩ | ⟨_, hf, _⟩ | ⟨_, _, hf, _⟩ | ⟨_, _, _, hf, _⟩ | ⟨_, _, _, _, hf, _⟩ |
    ⟨_, _, _, _, _, hf, _⟩ | ⟨_, _, _, _, _, _, _, hf, _⟩ | ⟨_, _, _, _, _, _, hs, _, he⟩ |
    ⟨_, _, _, _, _, _, _, hf, _⟩ | ⟨_, _, _, _, _, _, _, _, hf, _⟩ |
    ⟨_, _, _, _, _, _, hs, _, _, he⟩
  · simp [allOk] at hf
  · simp [allOk] at hf
  · simp [allOk] at hf
  · simp [allOk] at hf
  · simp [allOk] at hf
  · simp [allOk] at hf
  · simp [allOk] at hf
  · exact Or.inl ⟨hs, he⟩
  · simp [allOk] at hf
  · simp [allOk] at hf
  · exact Or.inr ⟨hs, he⟩

/-! ## Claim theorems -/

/-- C7: every mutable ref held by a `Snapshot` call ends the call exactly one
of committed or released; on commit failure the release guard still fires, and
after a successful commit the ref is not released (no double release). -/
theorem snapshot_commit_xor_release (env : SnapEnv) (ld : List (String × String))
    (src : LocalIdentifier) (ctx : Context) (w : World) :
    ((Snapshot env ld src ctx w).2.2.held = true →
      (((Snapshot env ld src ctx w).2.2.committed = true ∧
        (Snapshot env ld src ctx w).2.2.released = false) ∨
       ((Snapshot env ld src ctx w).2.2.committed = false ∧
        (Snapshot env ld src ctx w).2.2.released = true))) ∧
    ((Snapshot env ld src ctx w).1 = .error .commitErr →
      (Snapshot env ld src ctx w).2.2.released = true) ∧
    (∀ i, (Snapshot env ld src ctx w).1 = .ok i →
      (Snapshot env ld src ctx w).2.2.committed = true ∧
      (Snapshot env ld src ctx w).2.2.released = false) := by
  rcases Snapshot_shape env ld src ctx w with
    ⟨_, he⟩ | ⟨_, _, he⟩ | ⟨_, _, m, _, he⟩ | ⟨_, _, _, _, he⟩ | ⟨_, _, _, _, he⟩
  · rw [he]; simp
  · rw [he]; simp
  · rw [he]
    rcases snapshotWithRef_lifecycle env ld src w (snapshotSharedKey ld src) m false with
      ⟨_, ⟨hc, hr, hok⟩ | ⟨hc, hr, _, hnok⟩⟩
    · refine ⟨fun _ => Or.inl ⟨hc, hr⟩, fun hce => ?_, fun i hi => ⟨hc, hr⟩⟩
      rw [hok] at hce; exact absurd hce (by simp)
    · exact ⟨fun _ => Or.inr ⟨hc, hr⟩, fun _ => hr, fun i hi => absurd hi (hnok i)⟩
  · rw [he]; simp
  · rw [he]
    rcases snapshotWithRef_lifecycle env ld src
        { w with refs := w.refs ++ [freshId w], nextId := w.nextId + 1,
                 created := w.created + 1 }
        (snapshotSharedKey ld src) (freshId w) true with
      ⟨_, ⟨hc, hr, hok⟩ | ⟨hc, hr, _, hnok⟩⟩
    · refine ⟨fun _ => Or.inl ⟨hc, hr⟩, fun hce => ?_, fun i hi => ⟨hc, hr⟩⟩
      rw [hok] at hce; exact absurd hce (by simp)
    · exact ⟨fun _ => Or.inr ⟨hc, hr⟩, fun _ => hr, fun i hi => absurd hi (hnok i)⟩

/-- C7 witness at a concrete input. -/
theorem snapshot_commit_xor_release_witness :
    ((Snapshot allOk [("work", "/tmp/src")] ⟨"work", "", "v1", [], []⟩ "s1" w0).2.2.committed = true ∧
     (Snapshot allOk [("work", "/tmp/src")] ⟨"work", "", "v1", [], []⟩ "s1" w0).2.2.released = false) ∨
    ((Snapshot allOk [("work", "/tmp/src")] ⟨"work", "", "v1", [], []⟩ "s1" w0).2.2.committed = false ∧
     (Snapshot allOk [("work", "/tmp/src")] ⟨"work", "", "v1", [], []⟩ "s1" w0).2.2.released = true) :=
  (snapshot_commit_xor_release allOk [("work", "/tmp/src")] ⟨"work", "", "v1", [], []⟩ "s1" w0).1
    (by rfl)

/-- C3 counterexample: the claim says that when the identifier carries a
session id, `Snapshot` does not fail with `NoSession` even if the context
provides none; but the code takes the session only from the context, so this
call fails with `NoSession`. -/
theorem snapshot_noSession_despite_identifier_session :
    (Snapshot allOk [("n", "/d")] ⟨"n", "sid", "", [], []⟩ "" w0).1 =
      .error .noSession := rfl

/-- C3 amended: `CacheKey` fails with the no-session error precisely when both
the identifier and the context lack a session id; `Snapshot` fails with
`NoSession` precisely when the context lacks one, with the identifier's
session id playing no role. -/
theorem noSession_conditions (env : SnapEnv) (ld : List (String × String))
    (src : LocalIdentifier) (ctx : Context) (w : World) :
    ((∃ e, CacheKey ld ctx src = Except.error e) ↔ (src.SessionID = "" ∧ ctx = "")) ∧
    ((Snapshot env ld src ctx w).1 = .error .noSession ↔ ctx = "") := by
  constructor
  · by_cases hs : src.SessionID = "" <;> by_cases hc : ctx = "" <;>
      simp [CacheKey, hs, hc]
  · constructor
    · intro h
      rcases Snapshot_shape env ld src ctx w with
        ⟨hc, he⟩ | ⟨hc, _, he⟩ | ⟨hc, _, m, _, he⟩ | ⟨hc, _, _, _, he⟩ | ⟨hc, _, _, _, he⟩
      · exact hc
      · rw [he] at h; exact absurd h (by simp)
      · rw [he] at h
        rcases snapshotWithRef_lifecycle env ld src w (snapshotSharedKey ld src) m false with
          ⟨_, ⟨_, _, hok⟩ | ⟨_, _, hno, _⟩⟩
        · rw [hok] at h; exact absurd h (by simp)
        · exact absurd h hno
      · rw [he] at h; exact absurd h (by simp)
      · rw [he] at h
        rcases snapshotWithRef_lifecycle env ld src
            { w with refs := w.refs ++ [freshId w], nextId := w.nextId + 1,
                     created := w.created + 1 }
            (snapshotSharedKey ld src) (freshId w) true with
          ⟨_, ⟨_, _, hok⟩ | ⟨_, _, hno, _⟩⟩
        · rw [hok] at h; exact absurd h (by simp)
        · exact absurd h hno
    · intro h
      simp [Snapshot, h]

/-- C1: two successive all-success `Snapshot` calls for the same identifier
with no changes.  The first call writes the shared-key index once; the second
call reuses the very same ref (`createdNew = false`, same id) whose metadata
already records this exact shared key — and still performs a second index
write, because the skip check reads metadata key `"local.sharedKey"` while the
write stores under the full shared-key string, so the check never matches. -/
theorem snapshot_repeat_writes_index_again :
    (Snapshot allOk ldWork srcWork "s1" w0).2.2.indexWrites = 1 ∧
    (Snapshot allOk ldWork srcWork "s1"
      (Snapshot allOk ldWork srcWork "s1" w0).2.1).1 = .ok "ref-0" ∧
    (Snapshot allOk ldWork srcWork "s1"
      (Snapshot allOk ldWork srcWork "s1" w0).2.1).2.2.createdNew = false ∧
    (Snapshot allOk ldWork srcWork "s1"
      (Snapshot allOk ldWork srcWork "s1" w0).2.1).2.2.indexWrites = 1 :=
  ⟨rfl, rfl, rfl, rfl⟩

/-- C2 counterexample: the key returned for session id `"zzz"` begins with the
literal tag `"session:"` followed by the directory name — it is not prefixed
with the session ID. -/
theorem cacheKey_not_prefixed_by_sessionID :
    CacheKey [] "" ⟨"work", "zzz", "v1", [], []⟩ =
      .ok "session:work:sha256:\x7b\"SessionID\":\"zzz\",\"IncludePatterns\":null,\"ExcludePatterns\":null\x7d" ∧
    "zzz".data.isPrefixOf
      "session:work:sha256:\x7b\"SessionID\":\"zzz\",\"IncludePatterns\":null,\"ExcludePatterns\":null\x7d".data
      = false :=
  ⟨rfl, by decide⟩

/-- C2 amended: the returned string is the literal tag `"session"`, the
directory name, and the digest of the deterministic serialization of
(resolved session id, include patterns, exclude patterns); the session ID
enters only through the hashed serialization. -/
theorem cacheKey_shape (ld : List (String × String)) (ctx : Context)
    (src : LocalIdentifier) (h : ¬ (src.SessionID = "" ∧ ctx = "")) :
    CacheKey ld ctx src = .ok ("session:" ++ src.Name ++ ":" ++
      String.mk (digestString (jsonMarshalCacheKey
        (if src.SessionID = "" then ctx else src.SessionID)
        src.IncludePatterns src.ExcludePatterns))) := by
  by_cases hs : src.SessionID = ""
  · have hc : ¬ ctx = "" := fun hc => h ⟨hs, hc⟩
    simp [CacheKey, cacheKeyResult, hs, hc]
  · simp [CacheKey, cacheKeyResult, hs]

/-- C2 witness. -/
theorem cacheKey_shape_witness :
    CacheKey [] "ctxS" ⟨"dir", "", "hh", [], []⟩ =
      .ok ("session:" ++ "dir" ++ ":" ++
        String.mk (digestString (jsonMarshalCacheKey "ctxS" [] []))) :=
  cacheKey_shape [] "ctxS" ⟨"dir", "", "hh", [], []⟩ (by decide)

/-- C4 counterexample: the stored index value carries the constant
`"local.sharedKey:"` prefix; it is not the bare `name:hint:path` triple
`"work:v1:/tmp/src"` the claim gives. -/
theorem snapshot_stored_value_counterexample :
    (Snapshot allOk ldWork srcWork "s1" w0).2.1.mdItems =
      [⟨"ref-0", [("local.sharedKey:work:v1:/tmp/src",
        ⟨"local.sharedKey:work:v1:/tmp/src", "local.sharedKey:work:v1:/tmp/src"⟩)]⟩] ∧
    ¬ ("local.sharedKey:work:v1:/tmp/src" : String) = "work:v1:/tmp/src" :=
  ⟨rfl, by decide⟩

/-- C4 amended: the shared-key index value stored by a fresh successful
`Snapshot` is `keySharedKey + ":" + name + ":" + hint + ":" + hostPath`, both
as the record's key, its payload and its index. -/
theorem snapshot_stores_prefixed_sharedKey (name hint path ctx : String)
    (hctx : ¬ ctx = "") :
    (Snapshot allOk [(name, path)] ⟨name, "", hint, [], []⟩ ctx w0).2.1.mdItems =
      [⟨"ref-0", [(keySharedKey ++ ":" ++ name ++ ":" ++ hint ++ ":" ++ path,
        ⟨keySharedKey ++ ":" ++ name ++ ":" ++ hint ++ ":" ++ path,
         keySharedKey ++ ":" ++ name ++ ":" ++ hint ++ ":" ++ path⟩)]⟩] := by
  simp [Snapshot, snapshotWithRef, snapshotSharedKey, snapSkipStore, mdGet, mdSearch,
        mdSet, assocGet, lookupLd, freshId, allOk, w0, hctx]
  rfl

/-- C4 witness, at the spec's end-to-end example values. -/
theorem snapshot_stores_prefixed_sharedKey_witness :
    (Snapshot allOk [("work", "/tmp/src")] ⟨"work", "", "v1", [], []⟩ "s1" w0).2.1.mdItems =
      [⟨"ref-0", [("local.sharedKey:work:v1:/tmp/src",
        ⟨"local.sharedKey:work:v1:/tmp/src", "local.sharedKey:work:v1:/tmp/src"⟩)]⟩] :=
  snapshot_stores_prefixed_sharedKey "work" "v1" "/tmp/src" "s1" (by decide)

/-- C5: `Snapshot` reuses the first acquirable ref among the shared-key index
matches, in index order, without touching the creation counter; stale matches
are skipped without error; and only when no match is acquirable does it create
a fresh mutable ref (creation counter +1), again without error. -/
theorem snapshot_reuse_or_fresh_create (ld : List (String × String))
    (src : LocalIdentifier) (ctx : Context) (w : World) (hctx : ¬ ctx = "") :
    (∀ m, (mdSearch w (snapshotSharedKey ld src)).find? (fun i => w.refs.contains i) = some m →
      (Snapshot allOk ld src ctx w).1 = .ok m ∧
      (Snapshot allOk ld src ctx w).2.2.createdNew = false ∧
      (Snapshot allOk ld src ctx w).2.1.created = w.created) ∧
    ((mdSearch w (snapshotSharedKey ld src)).find? (fun i => w.refs.contains i) = none →
      (Snapshot allOk ld src ctx w).1 = .ok (freshId w) ∧
      (Snapshot allOk ld src ctx w).2.2.createdNew = true ∧
      (Snapshot allOk ld src ctx w).2.1.created = w.created + 1) := by
  constructor
  · intro m hm
    have he : Snapshot allOk ld src ctx w =
        snapshotWithRef allOk ld src w (snapshotSharedKey ld src) m false := by
      simp only [Snapshot]
      rw [if_neg hctx, hm]
      simp [allOk]
    rw [he]
    rcases snapshotWithRef_allOk ld src w (snapshotSharedKey ld src) m false with
      ⟨_, hr⟩ | ⟨_, hr⟩ <;> rw [hr] <;> exact ⟨rfl, rfl, by simp [mdSet_created]⟩
  · intro hm
    have he : Snapshot allOk ld src ctx w =
        snapshotWithRef allOk ld src
          { w with refs := w.refs ++ [freshId w], nextId := w.nextId + 1,
                   created := w.created + 1 }
          (snapshotSharedKey ld src) (freshId w) true := by
      simp only [Snapshot]
      rw [if_neg hctx, hm]
      simp [allOk]
    rw [he]
    rcases snapshotWithRef_allOk ld src
        { w with refs := w.refs ++ [freshId w], nextId := w.nextId + 1,
                 created := w.created + 1 }
        (snapshotSharedKey ld src) (freshId w) true with
      ⟨_, hr⟩ | ⟨_, hr⟩ <;> rw [hr] <;> exact ⟨rfl, rfl, by simp [mdSet_created]⟩

/-- C5 witness: in `wReuse` the index search finds `"r0"` acquirable and the
call reuses it without creating. -/
theorem snapshot_reuse_or_fresh_create_witness :
    (Snapshot allOk ldWork srcWork "s1" wReuse).1 = .ok "r0" ∧
    (Snapshot allOk ldWork srcWork "s1" wReuse).2.2.createdNew = false ∧
    (Snapshot allOk ldWork srcWork "s1" wReuse).2.1.created = wReuse.created :=
  (snapshot_reuse_or_fresh_create ldWork srcWork "s1" wReuse (by decide)).1 "r0" rfl

/-- The copy-failure exit of the tail: copy error surfaces, release and unmount
guards both fire, and nothing is written. -/
theorem snapshotWithRef_copyFail (env : SnapEnv) (ld : List (String × String))
    (src : LocalIdentifier) (w : World) (sk m : String) (cn : Bool)
    (h1 : env.mountOk = true) (h2 : env.lmMountOk = true) (h3 : env.getCCOk = true)
    (h4 : env.copyOk = false) :
    snapshotWithRef env ld src w sk m cn =
      (.error .copyErr, w, ⟨true, cn, [lookupLd ld src.Name], 0, true, 1, false⟩) := by
  simp [snapshotWithRef, h1, h2, h3, h4]

/-- An index write can only have happened after copy, explicit unmount and
hash-persist all succeeded, with the copy run on the configured source path. -/
theorem snapshotWithRef_indexWrite_order (env : SnapEnv) (ld : List (String × String))
    (src : LocalIdentifier) (w : World) (sk m : String) (cn : Bool)
    (h : 1 ≤ (snapshotWithRef env ld src w sk m cn).2.2.indexWrites) :
    env.copyOk = true ∧ env.unmountOk = true ∧ env.setCCOk = true ∧
    (snapshotWithRef env ld src w sk m cn).2.2.copyCalls = [lookupLd ld src.Name] := by
  rcases snapshotWithRef_cases env ld src w sk m cn with
    ⟨_, he⟩ | ⟨_, _, he⟩ | ⟨_, _, _, he⟩ | ⟨_, _, _, _, he⟩ | ⟨_, _, _, _, _, he⟩ |
    ⟨_, _, _, _, _, _, he⟩ | ⟨_, _, _, _, _, _, _, _, he⟩ | ⟨_, _, _, _, _, _, _, _, he⟩ |
    ⟨_, _, _, _, _, _, _, _, he⟩ | ⟨_, _, _, h4, h5, h6, _, _, _, he⟩ |
    ⟨_, _, _, h4, h5, h6, _, _, _, he⟩
  · rw [he] at h; exact absurd h (by simp)
  · rw [he] at h; exact absurd h (by simp)
  · rw [he] at h; exact absurd h (by simp)
  · rw [he] at h; exact absurd h (by simp)
  · rw [he] at h; exact absurd h (by simp)
  · rw [he] at h; exact absurd h (by simp)
  · rw [he] at h; exact absurd h (by simp)
  · rw [he] at h; exact absurd h (by simp)
  · rw [he] at h; exact absurd h (by simp)
  · exact ⟨h4, h5, h6, by rw [he]⟩
  · exact ⟨h4, h5, h6, by rw [he]⟩

/-- C6: a copier failure releases the mutable ref, unmounts the mount, and
leaves no shared-key index entry (the metadata records are untouched); and in
general an index write only ever happens after the copy, the explicit unmount
and the content-hash persist have all succeeded. -/
theorem snapshot_copy_failure_guards (env : SnapEnv) (ld : List (String × String))
    (src : LocalIdentifier) (ctx : Context) (w : World) (hctx : ¬ ctx = "") :
    ((env.searchOk = true ∧ env.newOk = true ∧ env.mountOk = true ∧ env.lmMountOk = true ∧
      env.getCCOk = true ∧ env.copyOk = false) →
      ((Snapshot env ld src ctx w).1 = .error .copyErr ∧
       (Snapshot env ld src ctx w).2.2.released = true ∧
       1 ≤ (Snapshot env ld src ctx w).2.2.unmountCalls ∧
       (Snapshot env ld src ctx w).2.2.indexWrites = 0 ∧
       (Snapshot env ld src ctx w).2.1.mdItems = w.mdItems)) ∧
    (1 ≤ (Snapshot env ld src ctx w).2.2.indexWrites →
      env.copyOk = true ∧ env.unmountOk = true ∧ env.setCCOk = true ∧
      (Snapshot env ld src ctx w).2.2.copyCalls = [lookupLd ld src.Name]) := by
  constructor
  · rintro ⟨hs, hn, h1, h2, h3, h4⟩
    rcases Snapshot_shape env ld src ctx w with
      ⟨hc, he⟩ | ⟨_, hsf, he⟩ | ⟨_, _, m, _, he⟩ | ⟨_, _, _, hnf, he⟩ | ⟨_, _, _, _, he⟩
    · exact absurd hc hctx
    · rw [hs] at hsf; exact absurd hsf (by simp)
    · rw [he, snapshotWithRef_copyFail env ld src w _ m false h1 h2 h3 h4]
      exact ⟨rfl, rfl, by simp, rfl, rfl⟩
    · rw [hn] at hnf; exact absurd hnf (by simp)
    · rw [he, snapshotWithRef_copyFail env ld src _ _ (freshId w) true h1 h2 h3 h4]
      exact ⟨rfl, rfl, by simp, rfl, rfl⟩
  · intro h
    rcases Snapshot_shape env ld src ctx w with
      ⟨hc, he⟩ | ⟨_, _, he⟩ | ⟨_, _, m, _, he⟩ | ⟨_, _, _, _, he⟩ | ⟨_, _, _, _, he⟩
    · exact absurd hc hctx
    · rw [he] at h; exact absurd h (by simp)
    · rw [he] at h ⊢
      exact snapshotWithRef_indexWrite_order env ld src w _ m false h
    · rw [he] at h; exact absurd h (by simp)
    · rw [he] at h ⊢
      exact snapshotWithRef_indexWrite_order env ld src _ _ (freshId w) true h

/-- C6 witness: forcing the copier to fail in the concrete scenario. -/
theorem snapshot_copy_failure_guards_witness :
    (Snapshot { copyOk := false } ldWork srcWork "s1" w0).1 = .error .copyErr ∧
    (Snapshot { copyOk := false } ldWork srcWork "s1" w0).2.2.released = true ∧
    1 ≤ (Snapshot { copyOk := false } ldWork srcWork "s1" w0).2.2.unmountCalls ∧
    (Snapshot { copyOk := false } ldWork srcWork "s1" w0).2.2.indexWrites = 0 ∧
    (Snapshot { copyOk := false } ldWork srcWork "s1" w0).2.1.mdItems = w0.mdItems :=
  (snapshot_copy_failure_guards { copyOk := false } ldWork srcWork "s1" w0 (by decide)).1
    ⟨rfl, rfl, rfl, rfl, rfl, rfl⟩

/-- C8: with a fixed (sessionID, name, includePatterns, excludePatterns) tuple
the key is the same on every call (even across different shared-key hints),
and changing any single one of the four fields — including merely reordering a
pattern list, which yields a different list — changes the returned key. -/
theorem cacheKey_deterministic_and_field_sensitive
    (sid sid2 n n2 hint hint2 : String) (inc inc2 exc exc2 : List String)
    (hsid : ¬ sid = "") (hsid2 : ¬ sid2 = "") :
    (CacheKey [] "" ⟨n, sid, hint, inc, exc⟩ = CacheKey [] "" ⟨n, sid, hint2, inc, exc⟩) ∧
    (¬ sid = sid2 →
      ¬ CacheKey [] "" ⟨n, sid, hint, inc, exc⟩ = CacheKey [] "" ⟨n, sid2, hint, inc, exc⟩) ∧
    (¬ n = n2 →
      ¬ CacheKey [] "" ⟨n, sid, hint, inc, exc⟩ = CacheKey [] "" ⟨n2, sid, hint, inc, exc⟩) ∧
    (¬ inc = inc2 →
      ¬ CacheKey [] "" ⟨n, sid, hint, inc, exc⟩ = CacheKey [] "" ⟨n, sid, hint, inc2, exc⟩) ∧
    (¬ exc = exc2 →
      ¬ CacheKey [] "" ⟨n, sid, hint, inc, exc⟩ = CacheKey [] "" ⟨n, sid, hint, inc, exc2⟩) := by
  have hkey : ∀ (nn ss hh : String) (ii ee : List String), ¬ ss = "" →
      CacheKey [] "" ⟨nn, ss, hh, ii, ee⟩ =
        .ok ("session:" ++ nn ++ ":" ++
          String.mk (digestString (jsonMarshalCacheKey ss ii ee))) := by
    intro nn ss hh ii ee hss
    simp [CacheKey, cacheKeyResult, hss]
  refine ⟨?_, ?_, ?_, ?_, ?_⟩
  · rw [hkey n sid hint inc exc hsid, hkey n sid hint2 inc exc hsid]
  · intro hne heq
    rw [hkey n sid hint inc exc hsid, hkey n sid2 hint inc exc hsid2] at heq
    exact hne (jsonMarshal_sessionID_inj
      (digestMk_inj (sessionKey_digest_inj (Except.ok.inj heq))))
  · intro hne heq
    rw [hkey n sid hint inc exc hsid, hkey n2 sid hint inc exc hsid] at heq
    exact hne (sessionKey_name_inj (Except.ok.inj heq))
  · intro hne heq
    rw [hkey n sid hint inc exc hsid, hkey n sid hint inc2 exc hsid] at heq
    exact hne (jsonMarshal_include_inj
      (digestMk_inj (sessionKey_digest_inj (Except.ok.inj heq))))
  · intro hne heq
    rw [hkey n sid hint inc exc hsid, hkey n sid hint inc exc2 hsid] at heq
    exact hne (jsonMarshal_exclude_inj
      (digestMk_inj (sessionKey_digest_inj (Except.ok.inj heq))))

/-- C8 witness. -/
theorem cacheKey_field_sensitive_witness :
    (CacheKey [] "" ⟨"n", "a", "h1", ["p"], []⟩ = CacheKey [] "" ⟨"n", "a", "h2", ["p"], []⟩) ∧
    ¬ CacheKey [] "" ⟨"n", "a", "h1", ["p"], []⟩ = CacheKey [] "" ⟨"n", "b", "h1", ["p"], []⟩ ∧
    ¬ CacheKey [] "" ⟨"n", "a", "h1", ["p"], []⟩ = CacheKey [] "" ⟨"m", "a", "h1", ["p"], []⟩ ∧
    ¬ CacheKey [] "" ⟨"n", "a", "h1", ["p"], []⟩ = CacheKey [] "" ⟨"n", "a", "h1", ["q"], []⟩ ∧
    ¬ CacheKey [] "" ⟨"n", "a", "h1", ["p"], []⟩ = CacheKey [] "" ⟨"n", "a", "h1", ["p"], ["x"]⟩ := by
  have h := cacheKey_deterministic_and_field_sensitive "a" "b" "n" "m" "h1" "h2"
    ["p"] ["q"] [] ["x"] (by decide) (by decide)
  exact ⟨h.1, h.2.1 (by decide), h.2.2.1 (by decide), h.2.2.2.1 (by decide),
    h.2.2.2.2 (by decide)⟩

/-- C9: the key depends only on the resolved session id, the name and the two
pattern lists; the shared-key hint and the configured host-path map (the only
other inputs the handler holds) are ignored, and no filesystem or world state
is an input at all. -/
theorem cacheKey_ignores_hint_and_paths (ld1 ld2 : List (String × String))
    (ctx : Context) (src1 src2 : LocalIdentifier)
    (hsid : src1.SessionID = src2.SessionID) (hn : src1.Name = src2.Name)
    (hinc : src1.IncludePatterns = src2.IncludePatterns)
    (hexc : src1.ExcludePatterns = src2.ExcludePatterns) :
    CacheKey ld1 ctx src1 = CacheKey ld2 ctx src2 := by
  obtain ⟨n1, s1, h1, i1, e1⟩ := src1
  obtain ⟨n2, s2, h2, i2, e2⟩ := src2
  dsimp only at hsid hn hinc hexc
  subst hsid hn hinc hexc
  rfl

/-- C9 witness: different hints, different host-path maps, same key. -/
theorem cacheKey_ignores_hint_and_paths_witness :
    CacheKey [("work", "/a")] "c" ⟨"work", "s", "v1", [], []⟩ =
      CacheKey [("work", "/b")] "c" ⟨"work", "s", "v2", [], []⟩ :=
  cacheKey_ignores_hint_and_paths [("work", "/a")] [("work", "/b")] "c"
    ⟨"work", "s", "v1", [], []⟩ ⟨"work", "s", "v2", [], []⟩ rfl rfl rfl rfl

/-- C10: for a name absent from the configured map, `Snapshot` performs no
validation and no `InvalidIdentifier`-style early failure (the embedded error
type has no such case and the all-success run returns `ok`): the shared key is
computed with the empty string as host path, and the copier is invoked with
the empty string as source path. -/
theorem snapshot_no_name_validation (ld : List (String × String))
    (src : LocalIdentifier) (ctx : Context) (w : World) (hctx : ¬ ctx = "")
    (habsent : ld.find? (fun p => p.1 = src.Name) = none) :
    (∃ i, (Snapshot allOk ld src ctx w).1 = .ok i) ∧
    (Snapshot allOk ld src ctx w).2.2.copyCalls = [""] ∧
    snapshotSharedKey ld src =
      keySharedKey ++ ":" ++ src.Name ++ ":" ++ src.SharedKeyHint ++ ":" := by
  have hlook : lookupLd ld src.Name = "" := by
    simp [lookupLd, habsent]
  refine ⟨?_, ?_, ?_⟩
  · rcases Snapshot_shape allOk ld src ctx w with
      ⟨hc, he⟩ | ⟨_, hsf, he⟩ | ⟨_, _, m, _, he⟩ | ⟨_, _, _, hnf, he⟩ | ⟨_, _, _, _, he⟩
    · exact absurd hc hctx
    · exact absurd hsf (by simp [allOk])
    · rw [he]
      rcases snapshotWithRef_allOk ld src w (snapshotSharedKey ld src) m false with
        ⟨_, hr⟩ | ⟨_, hr⟩ <;> rw [hr] <;> exact ⟨m, rfl⟩
    · exact absurd hnf (by simp [allOk])
    · rw [he]
      rcases snapshotWithRef_allOk ld src
          { w with refs := w.refs ++ [freshId w], nextId := w.nextId + 1,
                   created := w.created + 1 }
          (snapshotSharedKey ld src) (freshId w) true with
        ⟨_, hr⟩ | ⟨_, hr⟩ <;> rw [hr] <;> exact ⟨freshId w, rfl⟩
  · rcases Snapshot_shape allOk ld src ctx w with
      ⟨hc, he⟩ | ⟨_, hsf, he⟩ | ⟨_, _, m, _, he⟩ | ⟨_, _, _, hnf, he⟩ | ⟨_, _, _, _, he⟩
    · exact absurd hc hctx
    · exact absurd hsf (by simp [allOk])
    · rw [he]
      rcases snapshotWithRef_allOk ld src w (snapshotSharedKey ld src) m false with
        ⟨_, hr⟩ | ⟨_, hr⟩ <;> rw [hr] <;> simp [hlook]
    · exact absurd hnf (by simp [allOk])
    · rw [he]
      rcases snapshotWithRef_allOk ld src
          { w with refs := w.refs ++ [freshId w], nextId := w.nextId + 1,
                   created := w.created + 1 }
          (snapshotSharedKey ld src) (freshId w) true with
        ⟨_, hr⟩ | ⟨_, hr⟩ <;> rw [hr] <;> simp [hlook]
  · rw [snapshotSharedKey, hlook]
    apply String.ext
    simp [String.data_append]

/-- C10 witness. -/
theorem snapshot_no_name_validation_witness :
    (∃ i, (Snapshot allOk [] ⟨"nope", "", "hh", [], []⟩ "s1" w0).1 = .ok i) ∧
    (Snapshot allOk [] ⟨"nope", "", "hh", [], []⟩ "s1" w0).2.2.copyCalls = [""] ∧
    snapshotSharedKey [] ⟨"nope", "", "hh", [], []⟩ =
      keySharedKey ++ ":" ++ "nope" ++ ":" ++ "hh" ++ ":" :=
  snapshot_no_name_validation [] ⟨"nope", "", "hh", [], []⟩ "s1" w0 (by decide) rfl

/-- C3 witness. -/
theorem noSession_conditions_witness :
    (Snapshot allOk [] ⟨"n", "sid", "", [], []⟩ "" w0).1 = .error .noSession :=
  (noSession_conditions allOk [] ⟨"n", "sid", "", [], []⟩ "" w0).2.mpr rfl

end ImgLocal
